import Mathlib

/-!
Verification of the configuration-resolution engine of `nestjs-secrets`
(`SecretsLoaderService` / `ConfigLoader` and the four secret providers).

The TypeScript source is shallowly embedded: configuration trees become the
inductive `CValue`, lodash's `merge` (used verbatim by
`SecretsLoaderService.loadConfigFiles`) becomes `mergeValue`, the recursive
secret-resolution walk `resolveSecrets` becomes `resolveVal`/`resolveEntries`,
and each provider's regular expression and `resolveSecret` method is embedded
as an executable Lean function.
-/

namespace NestSecrets

/-- A JSON/YAML configuration value, as produced by `yaml.load`/`JSON.parse`:
scalars (string, number, boolean, null), arrays, and nested objects.
Objects are ordered association lists, matching JavaScript object key order. -/
inductive CValue where
  | str  : String → CValue
  | num  : Int → CValue
  | bool : Bool → CValue
  | null : CValue
  | arr  : List CValue → CValue
  | obj  : List (String × CValue) → CValue
deriving Repr

/-- Object entries of a configuration tree (`Record<string, any>`). -/
abbrev CEntries := List (String × CValue)

/-- Source entries whose keys do not occur in the destination object: these are
the keys lodash `merge` appends after the destination's own keys. -/
def newEntries (d s : CEntries) : CEntries :=
  s.filter (fun kv => !(d.any (fun dv => dv.1 == kv.1)))

mutual

/-- lodash `merge` of one source value into a destination value, as invoked by
`loadConfigFiles` via `merge({}, mergedConfig, fileConfig)`: two objects merge
recursively (destination keys in place, new source keys appended); two arrays
merge index by index, the destination keeping elements beyond the source's
length; a scalar source, and an array source over a non-array destination,
overwrite the destination. One lodash case has no representation in this
JSON-like value model and is approximated by the same overwrite: a
plain-object source over an array destination, which lodash turns into the
retained destination array with the source's keys grafted onto it (numeric
string keys as indices, other keys as named properties of the array object —
a value outside JSON). The merge theorems below therefore assert only
observations whose truth does not rest on that corner: merged array lengths,
scalar-source overwrites, retention of destination-only elements and keys,
and key-set unions. -/
def mergeValue : CValue → CValue → CValue
  | CValue.obj d, CValue.obj s => CValue.obj (mergeOld d s ++ newEntries d s)
  | CValue.arr d, CValue.arr s => CValue.arr (mergeElems d s)
  | _,            s            => s

/-- The destination object's entries after lodash `merge`: each destination
entry keeps its key and position; its value is merged with the source's value
at the same key when one exists. -/
def mergeOld : CEntries → CEntries → CEntries
  | [],            _ => []
  | (k, v) :: d, s =>
    (k, match s.lookup k with
        | some w => mergeValue v w
        | none   => v) :: mergeOld d s

/-- Index-wise array merge of lodash `merge`: position `i` of the result is
the recursive merge of both elements when both arrays have one, the source's
element when only the source does, and the destination's element beyond the
source's length. -/
def mergeElems : List CValue → List CValue → List CValue
  | d,      []     => d
  | [],     s      => s
  | x :: d, y :: s => mergeValue x y :: mergeElems d s

end

/-- Top-level merge of a parsed file's entries into the accumulated config,
i.e. `merge({}, mergedConfig, fileConfig)` on two `Record<string, any>`. -/
def mergeEntries (d s : CEntries) : CEntries :=
  mergeOld d s ++ newEntries d s

/-- What `SecretsProvider.resolveSecret` returns on success:
`Promise<string | string[]>`. -/
inductive ResolvedSecret where
  | single : String → ResolvedSecret
  | multi  : List String → ResolvedSecret
deriving Repr

/-- The configuration value `resolveSecrets` writes back into the tree for a
resolved reference: a string, or an array of strings. -/
def ResolvedSecret.toCValue : ResolvedSecret → CValue
  | .single s => .str s
  | .multi l  => .arr (l.map CValue.str)

/-- A `SecretsProvider` as `resolveSecrets` consumes it: a pure syntactic
check `isRef` (`isSecretReference`) and a fallible resolution `resolve`
(`resolveSecret`, whose rejection is an `error`). -/
structure Provider where
  isRef   : String → Bool
  resolve : String → Except String ResolvedSecret

mutual

/-- One value as processed inside `SecretsLoaderService.resolveSecrets`:
a string leaf the provider recognizes is overwritten with the resolved
secret, the original string surviving when `resolveSecret` throws (the
`try`/`catch` around the assignment); an object (`isObject` and not an
array) is recursed into; arrays and all other scalars are left untouched. -/
def resolveVal (p : Provider) : CValue → CValue
  | CValue.str s =>
    if p.isRef s then
      match p.resolve s with
      | Except.ok r    => r.toCValue
      | Except.error _ => CValue.str s
    else CValue.str s
  | CValue.obj o => CValue.obj (resolveEntries p o)
  | v => v

/-- The `for (const key in config)` loop of `resolveSecrets`: every entry
keeps its key; its value is processed by `resolveVal`. -/
def resolveEntries (p : Provider) : CEntries → CEntries
  | []            => []
  | (k, v) :: r => (k, resolveVal p v) :: resolveEntries p r

end

/-! ## Loader pipeline (`SecretsLoaderService.loadConfigFiles`) -/

/-- The `fileType` option: `'yaml' | 'json'`. -/
inductive FileType where
  | yaml
  | json
deriving Repr, DecidableEq, BEq

/-- JavaScript's `String.prototype.endsWith`, on the character lists backing
the strings. -/
def strEndsWith (s suffix : String) : Bool :=
  suffix.data.isSuffixOf s.data

/-- The parse-format decision of `loadConfigFiles` for one file: the option
destructuring `const {files, fileType = 'yaml'} = options` defaults the hint
to `'yaml'`, and the branch
`if (fileType === 'yaml' || filename.endsWith('.yml') || filename.endsWith('.yaml'))`
selects `yaml.load`, otherwise `JSON.parse`. -/
def chooseParseFormat (fileType : Option FileType) (filename : String) : FileType :=
  let ft := fileType.getD FileType.yaml
  if ft = FileType.yaml ∨ strEndsWith filename ".yml" = true ∨ strEndsWith filename ".yaml" = true then
    FileType.yaml
  else
    FileType.json

/-- Outcome of one filename in the `for (const filename of files)` loop:
the file may not exist (`existsSync` false, skipped), reading/parsing may
throw (caught, the file contributes nothing), or it parses to an object. -/
inductive FileOutcome where
  | missing
  | parseError
  | parsed : CEntries → FileOutcome

/-- The merge accumulation of `loadConfigFiles`: starting from `{}`, each
successfully parsed file is merged in with `merge({}, mergedConfig, fileConfig)`;
missing and unparsable files contribute nothing. -/
def mergeFiles (outcomes : List FileOutcome) : CEntries :=
  outcomes.foldl
    (fun acc o =>
      match o with
      | FileOutcome.parsed t => mergeEntries acc t
      | _ => acc)
    []

/-- Tail of `loadConfigFiles`: `if (provider) { await this.resolveSecrets(...) }`;
with no provider the merged tree is returned with no resolution pass. -/
def loadConfigFiles (provider : Option Provider) (outcomes : List FileOutcome) : CEntries :=
  match provider with
  | some p => resolveEntries p (mergeFiles outcomes)
  | none   => mergeFiles outcomes

/-! ## Provider construction (`loadProvider` / `createSecretProvider`) -/

/-- A backend SDK client as `loadProvider` sees it: opaque except for its
runtime constructor name (`client.constructor.name`). -/
structure Client where
  ctorName : String
deriving Repr

/-- The concrete provider instances `createSecretProvider` can construct,
each wrapping the supplied client. -/
inductive ProviderImpl where
  | awsSecretsManager   : Client → ProviderImpl
  | awsParameterStore   : Client → ProviderImpl
  | azureKeyVault       : Client → ProviderImpl
  | googleSecretManager : Client → ProviderImpl
deriving Repr

/-- `SecretsLoaderService.createSecretProvider`: a `switch` on the provider
key; on fall-through it logs a warning and returns `undefined`. The `Bool`
records whether the warning was logged. -/
def createSecretProvider (key : String) (client : Client) : Option ProviderImpl × Bool :=
  if key == "AwsSecretsManagerProvider" || key == "SecretsManager" then
    (some (ProviderImpl.awsSecretsManager client), false)
  else if key == "AwsParameterStoreProvider" || key == "SSMClient" then
    (some (ProviderImpl.awsParameterStore client), false)
  else if key == "AzureKeyVaultProvider" || key == "SecretClient" then
    (some (ProviderImpl.azureKeyVault client), false)
  else if key == "GoogleSecretManagerProvider" || key == "SecretManagerServiceClient" then
    (some (ProviderImpl.googleSecretManager client), false)
  else
    (none, true)

/-- The `provider` option: `SecretsProviderType | SecretsProvider`, i.e. a
type-tag string or an already constructed provider instance. -/
inductive ProviderOption where
  | inst : ProviderImpl → ProviderOption
  | tag  : String → ProviderOption

/-- The options `loadProvider` inspects. -/
structure LoaderOptions where
  provider : Option ProviderOption
  client   : Option Client

/-- `SecretsLoaderService.loadProvider`: an instance (`typeof ... === 'object'`)
is returned as-is; a tag string with a client goes through
`createSecretProvider`; a client alone is auto-detected by its constructor
name; otherwise `undefined`. The `Bool` records a logged warning. -/
def loadProvider (o : LoaderOptions) : Option ProviderImpl × Bool :=
  match o.provider, o.client with
  | some (ProviderOption.inst p), _ => (some p, false)
  | some (ProviderOption.tag s), some c => createSecretProvider s c
  | _, some c => createSecretProvider c.ctorName c
  | _, none => (none, false)

/-! ## Character classes and scanning helpers for the provider regexes

Each provider's `isSecretReference` is an anchored JavaScript regex whose
character classes all exclude their following delimiter, so greedy scanning
without backtracking decides the same language; the regexes are embedded as
deterministic scanners over `List Char`. -/

/-- Consume an exact literal from the front of the input, returning the rest. -/
def stripLit : List Char → List Char → Option (List Char)
  | [], r => some r
  | _ :: _, [] => none
  | c :: cs, d :: ds => if c = d then stripLit cs ds else none

/-- JavaScript `\w`: ASCII letters, digits and underscore. -/
def isWordChar (c : Char) : Bool :=
  c.isAlphanum || c == '_'

/-- The class `[\w-]` of the Azure vault-name segment. -/
def isWordDash (c : Char) : Bool :=
  isWordChar c || c == '-'

/-- JavaScript `\s`: ASCII whitespace plus the Unicode space separators,
line separators, NBSP and BOM. -/
def isJsSpace (c : Char) : Bool :=
  c == ' ' || c == '\t' || c == '\n' || c == '\r' ||
  c.val == 0x0B || c.val == 0x0C || c.val == 0xA0 || c.val == 0x1680 ||
  (decide (0x2000 ≤ c.val.toNat) && decide (c.val.toNat ≤ 0x200A)) ||
  c.val == 0x2028 || c.val == 0x2029 || c.val == 0x202F ||
  c.val == 0x205F || c.val == 0x3000 || c.val == 0xFEFF

/-- The class `[^/\s]` of the Azure secret-name and version segments. -/
def isSegChar (c : Char) : Bool :=
  !(c == '/' || isJsSpace c)

/-- The class `[a-zA-Z0-9_.-] (slash included)` of AWS Parameter Store parameter paths. -/
def isAwsPsPathChar (c : Char) : Bool :=
  c.isAlphanum || c == '_' || c == '.' || c == '/' || c == '-'

/-- The class `[a-z-]` of the AWS ARN partition segment. -/
def isLowerDash (c : Char) : Bool :=
  c.isLower || c == '-'

/-- The class `[a-z0-9-]` of AWS region segments. -/
def isLowerDigitDash (c : Char) : Bool :=
  c.isLower || c.isDigit || c == '-'

/-- JavaScript `.` (no `s` flag): any character except line terminators. -/
def isDotChar (c : Char) : Bool :=
  !(c == '\n' || c == '\r' || c.val == 0x2028 || c.val == 0x2029)

/-! ## AWS Parameter Store provider (`AwsParameterStoreProvider`) -/

/-- The ARN alternative of the Parameter Store pattern:
`arn:[a-z-]+:ssm:[a-z0-9-]+:\d{12}:parameter\/[a-zA-Z0-9_.-] (slash included)+`. -/
def awsPsArnMatch (l : List Char) : Bool :=
  match stripLit "arn:".data l with
  | none => false
  | some r1 =>
    let p1 := r1.span isLowerDash
    if p1.1.isEmpty then false
    else
      match stripLit ":ssm:".data p1.2 with
      | none => false
      | some r2 =>
        let p2 := r2.span isLowerDigitDash
        if p2.1.isEmpty then false
        else
          match p2.2 with
          | ':' :: r3 =>
            let acct := r3.take 12
            let r4 := r3.drop 12
            if acct.length == 12 && acct.all Char.isDigit then
              match stripLit ":parameter/".data r4 with
              | none => false
              | some r5 => !r5.isEmpty && r5.all isAwsPsPathChar
            else false
          | _ => false

/-- `AwsParameterStoreProvider.isSecretReference`: the anchored pattern
`^(?:\/[a-zA-Z0-9_.-] (slash included)+|arn:[a-z-]+:ssm:[a-z0-9-]+:\d{12}:parameter\/[a-zA-Z0-9_.-] (slash included)+)$`. -/
def awsPsIsSecretReference (s : String) : Bool :=
  match s.data with
  | '/' :: rest => !rest.isEmpty && rest.all isAwsPsPathChar
  | l => awsPsArnMatch l

/-- An SSM `Parameter` as the provider reads it: `Name` and `Value` fields,
either possibly absent. -/
structure SsmParameter where
  name  : Option String
  value : Option String
deriving Repr

/-- The SSM client surface `AwsParameterStoreProvider` uses: each call either
throws (backend error) or returns the response's possibly-absent payload
(`response.Parameters` / `response.Parameter`). -/
structure SsmClient where
  getParametersByPath : String → Except String (Option (List SsmParameter))
  getParameter        : String → Except String (Option SsmParameter)

/-- `pathRef.slice(0, -2)`: the path reference without its trailing `/*`. -/
def awsPsBasePath (ref : String) : String :=
  String.mk (ref.data.take (ref.data.length - 2))

/-- `AwsParameterStoreProvider.retrieveParametersByPath`: list parameters
under the prefix; throw when the response holds no parameters; map each
parameter to its value, an absent or empty value becoming `''` (with a
warning), then drop falsy entries with `.filter(Boolean)`. -/
def retrieveParametersByPath (c : SsmClient) (pathRef : String) : Except String (List String) :=
  match c.getParametersByPath (awsPsBasePath pathRef) with
  | Except.error e => Except.error e
  | Except.ok none => Except.error "No parameters found at path"
  | Except.ok (some ps) =>
    if ps.isEmpty then Except.error "No parameters found at path"
    else Except.ok ((ps.map (fun p => p.value.getD "")).filter (fun v => v != ""))

/-- `AwsParameterStoreProvider.retrieveSingleParameter`: fetch one parameter;
throw when the response has no parameter or the parameter's value is absent
or empty. -/
def retrieveSingleParameter (c : SsmClient) (paramName : String) : Except String String :=
  match c.getParameter paramName with
  | Except.error e => Except.error e
  | Except.ok none => Except.error "Parameter not found"
  | Except.ok (some p) =>
    match p.value with
    | none => Except.error "Parameter value is empty"
    | some v => if v = "" then Except.error "Parameter value is empty" else Except.ok v

/-- `AwsParameterStoreProvider.resolveSecret`: a reference ending in `/*`
goes through the recursive path lookup and yields an array, anything else
through the single-parameter lookup and yields one string. -/
def awsPsResolveSecret (c : SsmClient) (ref : String) : Except String ResolvedSecret :=
  if strEndsWith ref "/*" then
    (retrieveParametersByPath c ref).map ResolvedSecret.multi
  else
    (retrieveSingleParameter c ref).map ResolvedSecret.single

/-! ## Azure Key Vault provider (`AzureKeyVaultProvider`) -/

/-- The Azure secret-URL pattern
`^https:\/\/[\w-]+\.vault\.azure\.net\/secrets\/([^/\s]+)(?:\/([^/\s]+))?$`
as a parser returning the two capture groups: the secret name and the
optional version segment. -/
def azureParseRef (s : String) : Option (String × Option String) :=
  match stripLit "https://".data s.data with
  | none => none
  | some r1 =>
    let pv := r1.span isWordDash
    if pv.1.isEmpty then none
    else
      match stripLit ".vault.azure.net/secrets/".data pv.2 with
      | none => none
      | some r2 =>
        let p1 := r2.span isSegChar
        if p1.1.isEmpty then none
        else
          match p1.2 with
          | [] => some (String.mk p1.1, none)
          | '/' :: r3 =>
            let p2 := r3.span isSegChar
            if p2.1.isEmpty || !p2.2.isEmpty then none
            else some (String.mk p1.1, some (String.mk p2.1))
          | _ => none

/-- `AzureKeyVaultProvider.isSecretReference`: the URL pattern tested as a
whole-string match. -/
def azureIsSecretReference (s : String) : Bool :=
  (azureParseRef s).isSome

/-- An Azure `KeyVaultSecret` response payload: its `value` may be absent. -/
structure KeyVaultSecret where
  value : Option String
deriving Repr

/-- `AzureKeyVaultProvider.resolveSecret`: parse the reference (throwing on a
non-matching URL), call `client.getSecret` with the extracted name only —
the version capture group is never read — and throw when the response or its
value is absent or the value is the empty string. -/
def azureResolveSecret (getSecret : String → Except String (Option KeyVaultSecret))
    (ref : String) : Except String String :=
  match azureParseRef ref with
  | none => Except.error "Invalid Azure Key Vault secret reference"
  | some (secretName, _) =>
    match getSecret secretName with
    | Except.error e => Except.error e
    | Except.ok none => Except.error "Secret was retrieved but has an empty value"
    | Except.ok (some r) =>
      match r.value with
      | none => Except.error "Secret was retrieved but has an empty value"
      | some v =>
        if v = "" then Except.error "Secret was retrieved but has an empty value"
        else Except.ok v

/-! ## Google Secret Manager and AWS Secrets Manager reference syntax -/

/-- `GoogleSecretManagerProvider.isSecretReference`: the anchored pattern
`^projects\/[^/]+\/secrets\/[^/]+\/versions\/[^/]+$`. -/
def googleIsSecretReference (s : String) : Bool :=
  match stripLit "projects/".data s.data with
  | none => false
  | some r1 =>
    let p1 := r1.span (fun c => !(c == '/'))
    if p1.1.isEmpty then false
    else
      match stripLit "/secrets/".data p1.2 with
      | none => false
      | some r2 =>
        let p2 := r2.span (fun c => !(c == '/'))
        if p2.1.isEmpty then false
        else
          match stripLit "/versions/".data p2.2 with
          | none => false
          | some r3 => !r3.isEmpty && r3.all (fun c => !(c == '/'))

/-- `AwsSecretsManagerProvider.isSecretReference`: the anchored pattern
`^arn:aws:secretsmanager:[a-z0-9-]+:[0-9]+:secret:.+$`. -/
def awsSmIsSecretReference (s : String) : Bool :=
  match stripLit "arn:aws:secretsmanager:".data s.data with
  | none => false
  | some r1 =>
    let p1 := r1.span isLowerDigitDash
    if p1.1.isEmpty then false
    else
      match p1.2 with
      | ':' :: r2 =>
        let p2 := r2.span Char.isDigit
        if p2.1.isEmpty then false
        else
          match stripLit ":secret:".data p2.2 with
          | none => false
          | some r3 => !r3.isEmpty && r3.all isDotChar
      | _ => false

/-! ## Auxiliary notions used only to state properties -/

/-- A scalar configuration value: string, number, boolean or null —
anything that is neither an object nor an array. -/
def CValue.isScalar : CValue → Bool
  | CValue.str _  => true
  | CValue.num _  => true
  | CValue.bool _ => true
  | CValue.null   => true
  | CValue.arr _  => false
  | CValue.obj _  => false

/-- The key skeleton of a configuration value: the nested object structure
with its keys, with every non-object value collapsed to a leaf. Two values
with equal skeletons have the same key set at every level. -/
inductive Skel where
  | leaf : Skel
  | node : List (String × Skel) → Skel

mutual

/-- The key skeleton of a value. -/
def CValue.skel : CValue → Skel
  | CValue.obj o => Skel.node (skelEntries o)
  | _ => Skel.leaf

/-- The key skeleton of an object's entries. -/
def skelEntries : CEntries → List (String × Skel)
  | [] => []
  | (k, v) :: r => (k, CValue.skel v) :: skelEntries r

end

/-- The provider keys recognized by the `switch` in `createSecretProvider`. -/
def isKnownProviderKey (k : String) : Bool :=
  (k == "AwsSecretsManagerProvider" || k == "SecretsManager") ||
  (k == "AwsParameterStoreProvider" || k == "SSMClient") ||
  (k == "AzureKeyVaultProvider" || k == "SecretClient") ||
  (k == "GoogleSecretManagerProvider" || k == "SecretManagerServiceClient")

/-! ## Helper lemmas -/

theorem resolveEntries_append (p : Provider) (a b : CEntries) :
    resolveEntries p (a ++ b) = resolveEntries p a ++ resolveEntries p b := by
  induction a with
  | nil => rfl
  | cons kv r ih => cases kv with
    | mk k v => simp [resolveEntries, ih]

theorem newEntries_nil (s : CEntries) : newEntries [] s = s := by
  simp [newEntries]

theorem mergeEntries_nil_left (s : CEntries) : mergeEntries [] s = s := by
  simp [mergeEntries, mergeOld, newEntries_nil]

theorem mergeFiles_single (t : CEntries) :
    mergeFiles [FileOutcome.parsed t] = t := by
  simp [mergeFiles, mergeEntries_nil_left]

/-- A scalar source value always wins in `mergeValue`, whatever the
destination holds. -/
theorem mergeValue_scalar (v w : CValue) (hw : w.isScalar = true) :
    mergeValue v w = w := by
  cases v <;> cases w <;> first | rfl | simp [CValue.isScalar] at hw

/-- `List.lookup` into the merged destination entries: every destination key
keeps its (first) binding, merged with the source's binding at that key. -/
theorem lookup_mergeOld (d s : CEntries) (k : String) :
    (mergeOld d s).lookup k =
      (d.lookup k).map (fun v =>
        match s.lookup k with
        | some w => mergeValue v w
        | none   => v) := by
  induction d with
  | nil => rfl
  | cons kv r ih =>
    cases kv with
    | mk k' v' =>
      cases h : (k == k') with
      | true =>
        have : k = k' := eq_of_beq h
        subst this
        simp [mergeOld, List.lookup, h]
      | false =>
        simp [mergeOld, List.lookup, h, ih]

theorem lookup_append_of_some {l1 l2 : CEntries} {k : String} {v : CValue}
    (h : l1.lookup k = some v) : (l1 ++ l2).lookup k = some v := by
  induction l1 with
  | nil => simp [List.lookup] at h
  | cons kv r ih =>
    obtain ⟨k', v'⟩ := kv
    simp only [List.cons_append, List.lookup] at h ⊢
    cases hk : (k == k') with
    | true => rw [hk] at h; exact h
    | false => rw [hk] at h; exact ih h

/-- Lookup into a lodash object merge, at a key present in the destination. -/
theorem lookup_mergeEntries (d s : CEntries) (k : String) (v : CValue)
    (hd : d.lookup k = some v) :
    (mergeEntries d s).lookup k =
      some (match s.lookup k with
            | some w => mergeValue v w
            | none   => v) := by
  unfold mergeEntries
  apply lookup_append_of_some
  rw [lookup_mergeOld, hd]
  rfl

theorem mergeOld_keys (d s : CEntries) :
    (mergeOld d s).map Prod.fst = d.map Prod.fst := by
  induction d with
  | nil => rfl
  | cons kv r ih =>
    obtain ⟨k, v⟩ := kv
    simp [mergeOld, ih]

/-- The key list of a lodash object merge: the destination's keys in place,
then the source-only keys in source order. -/
theorem keys_mergeEntries (a b : CEntries) :
    (mergeEntries a b).map Prod.fst
      = a.map Prod.fst ++ (newEntries a b).map Prod.fst := by
  unfold mergeEntries
  rw [List.map_append, mergeOld_keys]

theorem lookup_none_append (l1 l2 : CEntries) (k : String)
    (h : l1.lookup k = none) : (l1 ++ l2).lookup k = l2.lookup k := by
  induction l1 with
  | nil => rfl
  | cons kv r ih =>
    obtain ⟨k', v'⟩ := kv
    simp only [List.cons_append, List.lookup] at h ⊢
    cases hk : (k == k') with
    | true => rw [hk] at h; simp at h
    | false => rw [hk] at h; exact ih h

theorem any_key_eq_false (a : CEntries) (k : String) (ha : a.lookup k = none) :
    a.any (fun av => av.1 == k) = false := by
  induction a with
  | nil => rfl
  | cons kv r ih =>
    obtain ⟨k', v'⟩ := kv
    simp only [List.lookup] at ha
    cases hk : (k == k') with
    | true => rw [hk] at ha; simp at ha
    | false =>
      rw [hk] at ha
      have h2 : (k' == k) = false :=
        beq_eq_false_iff_ne.mpr fun he => (beq_eq_false_iff_ne.mp hk) he.symm
      simp [List.any, h2, ih ha]

/-- At a key absent from the destination, the appended source-only entries
answer lookups exactly as the source does. -/
theorem lookup_newEntries (a b : CEntries) (k : String) (ha : a.lookup k = none) :
    (newEntries a b).lookup k = b.lookup k := by
  induction b with
  | nil => rfl
  | cons kv r ih =>
    obtain ⟨k', v'⟩ := kv
    show (List.filter _ ((k', v') :: r)).lookup k = _
    rw [List.filter_cons]
    cases hk : (k == k') with
    | true =>
      have hkk : k = k' := eq_of_beq hk
      subst hkk
      rw [if_pos (by simp [any_key_eq_false a k ha])]
      simp only [List.lookup, hk]
    | false =>
      have hr : List.lookup k ((k', v') :: r) = List.lookup k r := by
        simp only [List.lookup, hk]
      rw [hr]
      by_cases hp : (!(a.any (fun av => av.1 == (k', v').1))) = true
      · rw [if_pos hp]
        simp only [List.lookup, hk]
        exact ih
      · rw [if_neg hp]
        exact ih

/-- At a key absent from the destination object, the merged object answers
lookups exactly as the source does. -/
theorem lookup_mergeEntries_right (a b : CEntries) (k : String)
    (ha : a.lookup k = none) :
    (mergeEntries a b).lookup k = b.lookup k := by
  unfold mergeEntries
  have h1 : (mergeOld a b).lookup k = none := by
    rw [lookup_mergeOld, ha]
    rfl
  rw [lookup_none_append _ _ _ h1, lookup_newEntries a b k ha]

theorem mergeElems_length (d s : List CValue) :
    (mergeElems d s).length = max d.length s.length := by
  induction d generalizing s with
  | nil => cases s <;> simp [mergeElems]
  | cons x d ih =>
    cases s with
    | nil => simp [mergeElems]
    | cons y s => simp [mergeElems, ih]; omega

theorem mergeElems_getElem? (d s : List CValue) (i : Nat) :
    (mergeElems d s)[i]? =
      match d[i]?, s[i]? with
      | some x, some y => some (mergeValue x y)
      | some x, none   => some x
      | none,   o      => o := by
  induction d generalizing s i with
  | nil =>
    cases s with
    | nil => simp [mergeElems]
    | cons y s => simp [mergeElems]
  | cons x d ih =>
    cases s with
    | nil => cases hi : (x :: d)[i]? <;> simp [mergeElems, hi]
    | cons y s =>
      cases i with
      | zero => simp [mergeElems]
      | succ n => simpa [mergeElems] using ih s n

/-- With every parameter's value present and non-empty, `.filter(Boolean)`
drops nothing from the mapped value list. -/
theorem filter_values_of_nonempty (ps : List SsmParameter)
    (h : ∀ p ∈ ps, ∃ v, p.value = some v ∧ v ≠ "") :
    (ps.map (fun p => p.value.getD "")).filter (fun v => v != "") =
      ps.map (fun p => p.value.getD "") := by
  induction ps with
  | nil => rfl
  | cons p r ih =>
    obtain ⟨v, hv, hne⟩ := h p (by simp)
    have ihr := ih (fun q hq => h q (by simp [hq]))
    simp [List.filter_cons, hv, bne_iff_ne, hne, ihr]

theorem skel_toCValue (r : ResolvedSecret) : r.toCValue.skel = Skel.leaf := by
  cases r <;> rfl

mutual

theorem skel_resolveVal (p : Provider) : (v : CValue) → (resolveVal p v).skel = v.skel
  | CValue.str s => by
    simp only [resolveVal]
    split
    · split
      · rw [skel_toCValue]
        rfl
      · rfl
    · rfl
  | CValue.num _ => rfl
  | CValue.bool _ => rfl
  | CValue.null => rfl
  | CValue.arr _ => rfl
  | CValue.obj o => by
    simp only [resolveVal, CValue.skel]
    exact congrArg Skel.node (skelEntries_resolveEntries p o)

theorem skelEntries_resolveEntries (p : Provider) :
    (l : CEntries) → skelEntries (resolveEntries p l) = skelEntries l
  | [] => rfl
  | (k, v) :: r => by
    simp only [resolveEntries, skelEntries]
    rw [skel_resolveVal p v, skelEntries_resolveEntries p r]

end

theorem createSecretProvider_unknown (key : String) (c : Client)
    (h : isKnownProviderKey key = false) :
    createSecretProvider key c = (none, true) := by
  unfold createSecretProvider
  split_ifs with h1 h2 h3 h4
  · simp [isKnownProviderKey, h1] at h
  · simp [isKnownProviderKey, h2] at h
  · simp [isKnownProviderKey, h3] at h
  · simp [isKnownProviderKey, h4] at h
  · rfl

/-! ## Claim theorems -/

/-- Claim C1, counterexample: lodash `merge` — the merge `loadConfigFiles`
actually performs — does NOT replace a lower-precedence array wholesale:
merging `{a: [9]}` over `{a: [1, 2]}` yields `{a: [9, 2]}` (index-wise
merge keeping the destination's trailing element), not `{a: [9]}`. -/
theorem lodash_array_merge_counterexample :
    mergeValue (CValue.obj [("a", CValue.arr [CValue.num 1, CValue.num 2])])
        (CValue.obj [("a", CValue.arr [CValue.num 9])])
      = CValue.obj [("a", CValue.arr [CValue.num 9, CValue.num 2])]
    ∧ ¬ (mergeValue (CValue.obj [("a", CValue.arr [CValue.num 1, CValue.num 2])])
        (CValue.obj [("a", CValue.arr [CValue.num 9])])
      = CValue.obj [("a", CValue.arr [CValue.num 9])]) := by
  refine ⟨rfl, fun hEq => ?_⟩
  rw [show mergeValue (CValue.obj [("a", CValue.arr [CValue.num 1, CValue.num 2])])
        (CValue.obj [("a", CValue.arr [CValue.num 9])])
      = CValue.obj [("a", CValue.arr [CValue.num 9, CValue.num 2])] from rfl] at hEq
  simp at hEq

/-- Claim C1, amended: for a key bound to an array in both trees, lodash
`merge` combines the two arrays index-wise rather than wholesale: the merged
value at the key is an array whose length is the maximum of the two lengths,
a scalar element of the higher-precedence array overwrites the element at
its index, and the lower-precedence array's elements at indices at or beyond
the higher array's length are retained unchanged. Arrays are not
concatenated, and the higher-precedence array does not replace the lower one
wholesale (the counterexample exhibits a retained lower element). -/
theorem array_merge_indexwise (d s : CEntries) (k : String) (a b : List CValue)
    (hd : d.lookup k = some (CValue.arr a)) (hs : s.lookup k = some (CValue.arr b)) :
    ∃ m : List CValue,
      (mergeEntries d s).lookup k = some (CValue.arr m)
      ∧ m.length = max a.length b.length
      ∧ (∀ (i : Nat) (y : CValue), b[i]? = some y → y.isScalar = true → m[i]? = some y)
      ∧ (∀ i : Nat, b.length ≤ i → m[i]? = a[i]?) := by
  refine ⟨mergeElems a b, ?_, mergeElems_length a b, ?_, ?_⟩
  · rw [lookup_mergeEntries d s k _ hd, hs]
    rfl
  · intro i y hy hsc
    rw [mergeElems_getElem? a b i, hy]
    cases ha : a[i]? with
    | some x => simp [mergeValue_scalar x y hsc]
    | none => rfl
  · intro i hi
    have hb : b[i]? = none := by
      rw [List.getElem?_eq_none_iff]
      exact hi
    rw [mergeElems_getElem? a b i, hb]
    cases ha : a[i]? with
    | some x => rfl
    | none => rfl

theorem array_merge_indexwise_witness :
    ∃ m : List CValue,
      (mergeEntries [("a", CValue.arr [CValue.num 1, CValue.num 2])]
          [("a", CValue.arr [CValue.num 9])]).lookup "a"
        = some (CValue.arr m)
      ∧ m.length = max 2 1
      ∧ m[0]? = some (CValue.num 9)
      ∧ m[1]? = some (CValue.num 2) := by
  obtain ⟨m, h1, h2, h3, h4⟩ :=
    array_merge_indexwise [("a", CValue.arr [CValue.num 1, CValue.num 2])]
      [("a", CValue.arr [CValue.num 9])] "a"
      [CValue.num 1, CValue.num 2] [CValue.num 9] rfl rfl
  exact ⟨m, h1, h2, h3 0 (CValue.num 9) rfl rfl, (h4 1 (by decide)).trans rfl⟩

/-- Claim C5: merge precedence is left-to-right with recursive union of
objects — a key scalar in the later file takes the later file's value; for a
key bound to an object in both files the merged value is an object whose key
list is the earlier object's keys followed by the later object's new keys
(union of the key sets), where a scalar value of the later object wins at
its key, keys absent from the later object keep the earlier object's value,
and keys absent from the earlier object take the later object's value; and
the spec's concrete example `{a:{x:1,y:2}}` merged with `{a:{y:3,z:4}}`
gives `a = {x:1,y:3,z:4}`. -/
theorem merge_precedence_left_to_right :
    (∀ (d s : CEntries) (k : String) (v w : CValue),
      d.lookup k = some v → s.lookup k = some w → w.isScalar = true →
      (mergeEntries d s).lookup k = some w)
    ∧ (∀ (d s : CEntries) (k : String) (a b : CEntries),
      d.lookup k = some (CValue.obj a) → s.lookup k = some (CValue.obj b) →
      ∃ m : CEntries,
        (mergeEntries d s).lookup k = some (CValue.obj m)
        ∧ m.map Prod.fst = a.map Prod.fst ++ (newEntries a b).map Prod.fst
        ∧ (∀ (q : String) (w : CValue), b.lookup q = some w → w.isScalar = true →
            m.lookup q = some w)
        ∧ (∀ q : String, b.lookup q = none → m.lookup q = a.lookup q)
        ∧ (∀ q : String, a.lookup q = none → m.lookup q = b.lookup q))
    ∧ mergeValue (CValue.obj [("a", CValue.obj [("x", CValue.num 1), ("y", CValue.num 2)])])
        (CValue.obj [("a", CValue.obj [("y", CValue.num 3), ("z", CValue.num 4)])])
      = CValue.obj [("a", CValue.obj [("x", CValue.num 1), ("y", CValue.num 3), ("z", CValue.num 4)])] := by
  refine ⟨?_, ?_, rfl⟩
  · intro d s k v w hd hs hw
    rw [lookup_mergeEntries d s k v hd, hs]
    simp [mergeValue_scalar v w hw]
  · intro d s k a b hd hs
    refine ⟨mergeEntries a b, ?_, keys_mergeEntries a b, ?_, ?_, ?_⟩
    · rw [lookup_mergeEntries d s k _ hd, hs]
      rfl
    · intro q w hb hw
      cases hav : a.lookup q with
      | some v =>
        rw [lookup_mergeEntries a b q v hav, hb]
        simp [mergeValue_scalar v w hw]
      | none =>
        rw [lookup_mergeEntries_right a b q hav, hb]
    · intro q hb
      cases hav : a.lookup q with
      | some v =>
        rw [lookup_mergeEntries a b q v hav, hb]
      | none =>
        rw [lookup_mergeEntries_right a b q hav, hb]
    · intro q hav
      exact lookup_mergeEntries_right a b q hav

theorem merge_precedence_left_to_right_witness :
    (mergeEntries [("b", CValue.num 1)] [("b", CValue.num 2)]).lookup "b"
      = some (CValue.num 2) :=
  merge_precedence_left_to_right.1 [("b", CValue.num 1)] [("b", CValue.num 2)] "b"
    (CValue.num 1) (CValue.num 2) rfl rfl rfl

/-- Claim C3: per-leaf failure isolation — when the provider's resolution
throws at one key but succeeds at a sibling, the loaded tree keeps the
original reference string at the failing key, holds the resolved value at
the succeeding key, resolves all surrounding entries as usual, and the load
call returns the tree (the per-leaf error is caught, not propagated). -/
theorem partial_failure_isolation (p : Provider) (l1 l2 l3 : CEntries)
    (kb kc sb sc e : String) (v : ResolvedSecret)
    (hb1 : p.isRef sb = true) (hb2 : p.resolve sb = Except.error e)
    (hc1 : p.isRef sc = true) (hc2 : p.resolve sc = Except.ok v) :
    loadConfigFiles (some p)
        [FileOutcome.parsed (l1 ++ (kb, CValue.str sb) :: l2 ++ (kc, CValue.str sc) :: l3)]
      = resolveEntries p l1 ++ (kb, CValue.str sb) ::
          (resolveEntries p l2 ++ (kc, v.toCValue) :: resolveEntries p l3) := by
  show resolveEntries p (mergeFiles [FileOutcome.parsed _]) = _
  rw [mergeFiles_single, resolveEntries_append]
  simp only [resolveEntries]
  rw [resolveEntries_append]
  simp only [resolveEntries, resolveVal, hb1, hb2, hc1, hc2, if_true]
  simp [List.cons_append]

theorem partial_failure_isolation_witness :
    loadConfigFiles
        (some ⟨fun s => s == "ref:b" || s == "ref:c",
               fun s => if s == "ref:c" then Except.ok (ResolvedSecret.single "okval")
                        else Except.error "backend down"⟩)
        [FileOutcome.parsed [("b", CValue.str "ref:b"), ("c", CValue.str "ref:c")]]
      = [("b", CValue.str "ref:b"), ("c", CValue.str "okval")] :=
  partial_failure_isolation
    ⟨fun s => s == "ref:b" || s == "ref:c",
     fun s => if s == "ref:c" then Except.ok (ResolvedSecret.single "okval")
              else Except.error "backend down"⟩
    [] [] [] "b" "c" "ref:b" "ref:c" "backend down" (ResolvedSecret.single "okval")
    rfl rfl rfl rfl

/-- Claim C4: secret resolution preserves tree shape — after the resolution
walk the key skeleton of the tree is unchanged at every level; a string leaf
the provider does not recognize is returned verbatim; and a string leaf is
only ever replaced by a string or by an array of strings. -/
theorem resolution_preserves_shape (p : Provider) (o : CEntries) :
    skelEntries (resolveEntries p o) = skelEntries o
    ∧ (∀ s : String, p.isRef s = false → resolveVal p (CValue.str s) = CValue.str s)
    ∧ (∀ s : String, resolveVal p (CValue.str s) = CValue.str s
        ∨ (∃ r : String, resolveVal p (CValue.str s) = CValue.str r)
        ∨ (∃ l : List String,
            resolveVal p (CValue.str s) = CValue.arr (List.map CValue.str l))) := by
  refine ⟨skelEntries_resolveEntries p o, ?_, ?_⟩
  · intro s hs
    simp [resolveVal, hs]
  · intro s
    cases h : p.isRef s with
    | false => exact Or.inl (by simp [resolveVal, h])
    | true =>
      cases hr : p.resolve s with
      | error e => exact Or.inl (by simp [resolveVal, h, hr])
      | ok r =>
        cases r with
        | single w =>
          exact Or.inr (Or.inl ⟨w, by simp [resolveVal, h, hr, ResolvedSecret.toCValue]⟩)
        | multi l =>
          exact Or.inr (Or.inr ⟨l, by simp [resolveVal, h, hr, ResolvedSecret.toCValue]⟩)

theorem resolution_preserves_shape_witness :
    skelEntries (resolveEntries
        ⟨fun s => s == "ssm:/x", fun _ => Except.ok (ResolvedSecret.single "secretval")⟩
        [("a", CValue.obj [("b", CValue.str "ssm:/x")])])
      = skelEntries [("a", CValue.obj [("b", CValue.str "ssm:/x")])]
    ∧ resolveVal ⟨fun s => s == "ssm:/x", fun _ => Except.ok (ResolvedSecret.single "secretval")⟩
        (CValue.str "plain") = CValue.str "plain" :=
  ⟨(resolution_preserves_shape
      ⟨fun s => s == "ssm:/x", fun _ => Except.ok (ResolvedSecret.single "secretval")⟩
      [("a", CValue.obj [("b", CValue.str "ssm:/x")])]).1,
   (resolution_preserves_shape
      ⟨fun s => s == "ssm:/x", fun _ => Except.ok (ResolvedSecret.single "secretval")⟩
      [("a", CValue.obj [("b", CValue.str "ssm:/x")])]).2.1 "plain" rfl⟩

/-- Claim C6: provider resolution policy — an already constructed provider
instance is returned unchanged; with neither a provider tag nor a client the
result is `none` with no warning and the load skips resolution; a client
with an unrecognized constructor name yields a warning and `none`, and the
load still returns the merged configuration with no secrets resolved. -/
theorem provider_resolution_policy (pi : ProviderImpl) (copt : Option Client) :
    loadProvider ⟨some (ProviderOption.inst pi), copt⟩ = (some pi, false)
    ∧ loadProvider ⟨none, none⟩ = (none, false)
    ∧ (∀ outcomes, loadConfigFiles none outcomes = mergeFiles outcomes)
    ∧ (∀ c : Client, isKnownProviderKey c.ctorName = false →
        loadProvider ⟨none, some c⟩ = (none, true)) := by
  refine ⟨?_, rfl, fun _ => rfl, ?_⟩
  · cases copt <;> rfl
  · intro c h
    show createSecretProvider c.ctorName c = (none, true)
    exact createSecretProvider_unknown c.ctorName c h

theorem provider_resolution_policy_witness :
    loadProvider ⟨none, some ⟨"FancyVaultClient"⟩⟩ = (none, true)
    ∧ loadConfigFiles none [FileOutcome.parsed [("a", CValue.str "x")]]
        = mergeFiles [FileOutcome.parsed [("a", CValue.str "x")]] :=
  ⟨(provider_resolution_policy (ProviderImpl.awsSecretsManager ⟨"c"⟩) none).2.2.2
      ⟨"FancyVaultClient"⟩ rfl,
   (provider_resolution_policy (ProviderImpl.awsSecretsManager ⟨"c"⟩) none).2.2.1
      [FileOutcome.parsed [("a", CValue.str "x")]]⟩

/-- Claim C7: AWS Parameter Store resolution — a reference ending in `/*`
goes through the recursive path lookup: when the backend returns parameters
each holding a non-empty value, the result is exactly their values as an
array in the backend's order; when the lookup returns no parameters (an
absent or empty `Parameters` list) a not-found error is raised. A reference
not ending in `/*` goes through the single lookup: a present non-empty
value is returned, and a missing parameter or an absent/empty value raises
an error. -/
theorem aws_parameter_store_resolution (c : SsmClient) (ref : String) :
    (strEndsWith ref "/*" = true →
      (∀ ps, c.getParametersByPath (awsPsBasePath ref) = Except.ok (some ps) →
        ps ≠ [] → (∀ p ∈ ps, ∃ v, p.value = some v ∧ v ≠ "") →
        awsPsResolveSecret c ref
          = Except.ok (ResolvedSecret.multi (ps.map (fun p => p.value.getD ""))))
      ∧ (c.getParametersByPath (awsPsBasePath ref) = Except.ok none →
          awsPsResolveSecret c ref = Except.error "No parameters found at path")
      ∧ (c.getParametersByPath (awsPsBasePath ref) = Except.ok (some []) →
          awsPsResolveSecret c ref = Except.error "No parameters found at path")
      ∧ (∀ ps, c.getParametersByPath (awsPsBasePath ref) = Except.ok (some ps) → ps ≠ [] →
          awsPsResolveSecret c ref
            = Except.ok (ResolvedSecret.multi
                ((ps.map (fun p => p.value.getD "")).filter (fun v => v != "")))))
    ∧ (strEndsWith ref "/*" = false →
      (∀ p v, c.getParameter ref = Except.ok (some p) → p.value = some v → v ≠ "" →
        awsPsResolveSecret c ref = Except.ok (ResolvedSecret.single v))
      ∧ (c.getParameter ref = Except.ok none →
          awsPsResolveSecret c ref = Except.error "Parameter not found")
      ∧ (∀ p, c.getParameter ref = Except.ok (some p) →
          p.value = none ∨ p.value = some "" →
          awsPsResolveSecret c ref = Except.error "Parameter value is empty")) := by
  constructor
  · intro hw
    refine ⟨?_, ?_, ?_, ?_⟩
    · intro ps hps hne hvals
      simp [awsPsResolveSecret, hw, retrieveParametersByPath, hps, hne, Except.map,
            filter_values_of_nonempty ps hvals]
    · intro hn
      simp [awsPsResolveSecret, hw, retrieveParametersByPath, hn, Except.map]
    · intro hn
      simp [awsPsResolveSecret, hw, retrieveParametersByPath, hn, Except.map]
    · intro ps hps hne
      simp [awsPsResolveSecret, hw, retrieveParametersByPath, hps, hne, Except.map]
  · intro hw
    refine ⟨?_, ?_, ?_⟩
    · intro p v hp hv hne
      simp [awsPsResolveSecret, hw, retrieveSingleParameter, hp, hv, hne, Except.map]
    · intro hn
      simp [awsPsResolveSecret, hw, retrieveSingleParameter, hn, Except.map]
    · intro p hp hv
      cases hv with
      | inl h0 => simp [awsPsResolveSecret, hw, retrieveSingleParameter, hp, h0, Except.map]
      | inr h0 => simp [awsPsResolveSecret, hw, retrieveSingleParameter, hp, h0, Except.map]

theorem aws_parameter_store_resolution_witness :
    awsPsResolveSecret
        ⟨fun _ => Except.ok (some [⟨some "/app/dev/a", some "va"⟩,
                                   ⟨some "/app/dev/b", some "vb"⟩,
                                   ⟨some "/app/dev/c", some "vc"⟩]),
         fun _ => Except.ok (some ⟨some "/app/x", some "vx"⟩)⟩
        "/app/dev/*"
      = Except.ok (ResolvedSecret.multi ["va", "vb", "vc"]) := by
  have h := (aws_parameter_store_resolution
      ⟨fun _ => Except.ok (some [⟨some "/app/dev/a", some "va"⟩,
                                 ⟨some "/app/dev/b", some "vb"⟩,
                                 ⟨some "/app/dev/c", some "vc"⟩]),
       fun _ => Except.ok (some ⟨some "/app/x", some "vx"⟩)⟩
      "/app/dev/*").1 (by rfl)
  have h2 := h.1
      [⟨some "/app/dev/a", some "va"⟩, ⟨some "/app/dev/b", some "vb"⟩,
       ⟨some "/app/dev/c", some "vc"⟩]
      rfl (by simp)
      (by
        intro p hp
        rcases List.mem_cons.mp hp with h3 | hp
        · exact ⟨"va", by rw [h3], by decide⟩
        rcases List.mem_cons.mp hp with h3 | hp
        · exact ⟨"vb", by rw [h3], by decide⟩
        rcases List.mem_cons.mp hp with h3 | hp
        · exact ⟨"vc", by rw [h3], by decide⟩
        · simp at hp)
  exact h2

/-- Claim C8: the Azure Key Vault provider parses an optional version
segment out of the reference but never forwards it: for any reference whose
URL carries a version and any reference to the same secret name without
one, `resolveSecret` behaves identically — the backend is consulted with
the name alone — succeeding exactly when the backend returns a present,
non-empty value and raising an error otherwise. -/
theorem azure_version_not_forwarded
    (g : String → Except String (Option KeyVaultSecret))
    (ref refNoVer secretName verStr : String)
    (h1 : azureParseRef ref = some (secretName, some verStr))
    (h2 : azureParseRef refNoVer = some (secretName, none)) :
    azureResolveSecret g ref = azureResolveSecret g refNoVer
    ∧ (∀ v, azureResolveSecret g ref = Except.ok v ↔
        g secretName = Except.ok (some ⟨some v⟩) ∧ v ≠ "")
    ∧ (g secretName = Except.ok none ∨ g secretName = Except.ok (some ⟨none⟩)
        ∨ g secretName = Except.ok (some ⟨some ""⟩) →
        azureResolveSecret g ref
          = Except.error "Secret was retrieved but has an empty value") := by
  refine ⟨?_, ?_, ?_⟩
  · simp only [azureResolveSecret, h1, h2]
  · intro v
    simp only [azureResolveSecret, h1]
    constructor
    · intro hok
      cases hg : g secretName with
      | error e => rw [hg] at hok; simp at hok
      | ok o =>
        rw [hg] at hok
        cases o with
        | none => simp at hok
        | some r =>
          obtain ⟨rv⟩ := r
          cases rv with
          | none => simp at hok
          | some w =>
            by_cases hw : w = ""
            · rw [hw] at hok; simp at hok
            · simp [hw] at hok
              subst hok
              exact ⟨rfl, hw⟩
    · rintro ⟨hg, hv⟩
      rw [hg]
      simp [hv]
  · intro hg
    rcases hg with hg | hg | hg <;> simp [azureResolveSecret, h1, hg]

theorem azure_version_not_forwarded_witness :
    azureResolveSecret
        (fun n => if n == "db-password" then Except.ok (some ⟨some "s3cr3t"⟩)
                  else Except.error "not found")
        "https://myvault.vault.azure.net/secrets/db-password/9f2a"
      = azureResolveSecret
        (fun n => if n == "db-password" then Except.ok (some ⟨some "s3cr3t"⟩)
                  else Except.error "not found")
        "https://myvault.vault.azure.net/secrets/db-password" :=
  (azure_version_not_forwarded
    (fun n => if n == "db-password" then Except.ok (some ⟨some "s3cr3t"⟩)
              else Except.error "not found")
    "https://myvault.vault.azure.net/secrets/db-password/9f2a"
    "https://myvault.vault.azure.net/secrets/db-password"
    "db-password" "9f2a" rfl rfl).1

/-- Claim C9: provider syntax boundaries — each provider's
`isSecretReference` accepts its own native reference syntax and rejects
every other provider's native syntax as well as arbitrary non-reference
strings: the Azure URL is rejected by the AWS Parameter Store pattern, the
AWS Secrets Manager ARN is rejected by the AWS Parameter Store and Google
patterns, the Google versions path is rejected by the AWS and Azure
patterns, and plain strings are rejected by all four. -/
theorem provider_syntax_boundaries :
    awsPsIsSecretReference "/app/prod/db-password" = true
    ∧ awsPsIsSecretReference "arn:aws:ssm:us-east-1:123456789012:parameter/myapplication/dev/api_key" = true
    ∧ azureIsSecretReference "https://myvault.vault.azure.net/secrets/db-password" = true
    ∧ googleIsSecretReference "projects/my-project/secrets/api-key/versions/latest" = true
    ∧ awsSmIsSecretReference "arn:aws:secretsmanager:us-east-1:123456789012:secret:my-secret" = true
    ∧ awsPsIsSecretReference "https://myvault.vault.azure.net/secrets/db-password" = false
    ∧ awsPsIsSecretReference "arn:aws:secretsmanager:us-east-1:123456789012:secret:my-secret" = false
    ∧ googleIsSecretReference "arn:aws:secretsmanager:us-east-1:123456789012:secret:my-secret" = false
    ∧ awsPsIsSecretReference "projects/my-project/secrets/api-key/versions/latest" = false
    ∧ azureIsSecretReference "projects/my-project/secrets/api-key/versions/latest" = false
    ∧ azureIsSecretReference "arn:aws:secretsmanager:us-east-1:123456789012:secret:my-secret" = false
    ∧ azureIsSecretReference "/app/prod/db-password" = false
    ∧ googleIsSecretReference "/app/prod/db-password" = false
    ∧ googleIsSecretReference "https://myvault.vault.azure.net/secrets/db-password" = false
    ∧ awsSmIsSecretReference "/app/prod/db-password" = false
    ∧ awsSmIsSecretReference "https://myvault.vault.azure.net/secrets/db-password" = false
    ∧ awsSmIsSecretReference "projects/my-project/secrets/api-key/versions/latest" = false
    ∧ awsSmIsSecretReference "arn:aws:ssm:us-east-1:123456789012:parameter/myapplication/dev/api_key" = false
    ∧ awsPsIsSecretReference "hello world" = false
    ∧ azureIsSecretReference "hello world" = false
    ∧ googleIsSecretReference "hello world" = false
    ∧ awsSmIsSecretReference "hello world" = false
    ∧ awsPsIsSecretReference "" = false
    ∧ azureIsSecretReference "" = false
    ∧ googleIsSecretReference "" = false
    ∧ awsSmIsSecretReference "" = false := by
  repeat constructor

/-- Claim C2: when `fileType` is not specified, `loadConfigFiles` does NOT
infer the format per file — the destructuring default `fileType = 'yaml'`
makes the branch condition true for every filename, so every file is parsed
with `yaml.load`, including names that do not end in `.yml`/`.yaml`; the
documented extension inference never runs. -/
theorem default_filetype_forces_yaml :
    chooseParseFormat none "settings.json" = FileType.yaml
    ∧ ∀ fn : String, chooseParseFormat none fn = FileType.yaml := by
  refine ⟨rfl, fun fn => ?_⟩
  simp [chooseParseFormat]

/-- Claim C10: an explicit `fileType: 'json'` is overridden by the extension
check — files ending in `.yml` or `.yaml` are still parsed as YAML, other
files as JSON — while an explicit `'yaml'` forces YAML for every file, so
the explicit hint only ever forces a format when it is `'yaml'`. -/
theorem json_hint_overridden_by_extension :
    (∀ fn : String, strEndsWith fn ".yml" = true ∨ strEndsWith fn ".yaml" = true →
      chooseParseFormat (some FileType.json) fn = FileType.yaml)
    ∧ (∀ fn : String, strEndsWith fn ".yml" = false → strEndsWith fn ".yaml" = false →
      chooseParseFormat (some FileType.json) fn = FileType.json)
    ∧ (∀ fn : String, chooseParseFormat (some FileType.yaml) fn = FileType.yaml) := by
  refine ⟨?_, ?_, fun fn => by simp [chooseParseFormat]⟩
  · intro fn h
    cases h with
    | inl h => simp [chooseParseFormat, h]
    | inr h => simp [chooseParseFormat, h]
  · intro fn h1 h2
    simp [chooseParseFormat, h1, h2]

theorem json_hint_overridden_by_extension_witness :
    chooseParseFormat (some FileType.json) "settings.yml" = FileType.yaml
    ∧ chooseParseFormat (some FileType.json) "settings.json" = FileType.json :=
  ⟨json_hint_overridden_by_extension.1 "settings.yml" (Or.inl rfl),
   json_hint_overridden_by_extension.2.1 "settings.json" rfl rfl⟩

end NestSecrets
